import Mathlib

/-!
Verification development for the uvm-rs credential-migration tool.

The Rust sources under src/ are shallowly embedded here: byte strings become
`List Nat` (each byte below 256 where it matters), fallible operations return
`Option`, `Except` or `RustResult` (whose `panicked` constructor models a Rust
panic), and the external cryptographic primitives from the `ring` crate
(X25519 agreement, HKDF-SHA256, AES-256-GCM) are abstracted as a record of
functions, so that the control flow, field plumbing and error mapping of
`crypto.rs` are verified while the primitives' contracts appear as explicit
hypotheses.
-/

namespace Uvm

/-- Byte strings (Rust `Vec<u8>` / `&[u8]`), as lists of naturals. -/
abbrev Bytes := List Nat

/-- Wire announcement envelope `OpenBox` from schema.rs. -/
structure OpenBox where
  public_key : Bytes
deriving DecidableEq, Repr

/-- Wire sealed envelope `SealedBox` from schema.rs (field order as declared). -/
structure SealedBox where
  public_key : Bytes
  encrypted_vault : Bytes
  key_derivation_salt : Bytes
  encryption_nonce : Bytes
  authentication_tag : Bytes
deriving DecidableEq, Repr

/-- Credential record `Passkey` from schema.rs. -/
structure Passkey where
  credential_id : String
  relying_party_id : String
  relying_party_name : String
  user_handle : String
  user_display_name : String
  counter : String
  key_algorithm : String
  private_key : Bytes
deriving DecidableEq, Repr

/-- Plaintext payload `Vault` from schema.rs. -/
structure Vault where
  passkeys : List Passkey
deriving DecidableEq, Repr

/-- Error enum from crypto.rs. -/
inductive Error where
  | Csprng
  | GeneratingPubKey
  | ParsingPeerKey
  | KeyExpansion
  | Sealing
  | Opening
  | Decoding (msg : String)
deriving DecidableEq, Repr

/-- Result of running a piece of Rust code: normal return, error return, or a
panic (`expect` / `unwrap`). -/
inductive RustResult (α : Type) where
  | ok (value : α)
  | err (e : Error)
  | panicked (msg : String)
deriving DecidableEq, Repr

instance {ε α : Type} [DecidableEq ε] [DecidableEq α] : DecidableEq (Except ε α) := fun x y =>
  match x, y with
  | Except.error a, Except.error b =>
    if h : a = b then isTrue (by rw [h]) else isFalse (fun hc => by cases hc; exact h rfl)
  | Except.error _, Except.ok _ => isFalse (fun hc => by cases hc)
  | Except.ok _, Except.error _ => isFalse (fun hc => by cases hc)
  | Except.ok a, Except.ok b =>
    if h : a = b then isTrue (by rw [h]) else isFalse (fun hc => by cases hc; exact h rfl)

/-- Abstraction of the external primitives used by crypto.rs (`ring` crate and
`serde_json`): X25519 public-key derivation and agreement, HKDF-SHA256
extract-and-expand sized for AES-256-GCM, AES-256-GCM seal/open, and JSON
(de)serialization of the vault.  Each fallible `ring` operation is a total
function into `Option`. -/
structure CryptoPrimitives where
  computePublicKey : Bytes → Option Bytes
  agree : Bytes → Bytes → Option Bytes
  hkdfSha256Expand : Bytes → Bytes → Option Bytes
  aesGcmSealTag : Bytes → Bytes → Bytes → Option (Bytes × Bytes)
  aesGcmOpen : Bytes → Bytes → Bytes → Option Bytes
  serializeVault : Vault → Bytes
  deserializeVault : Bytes → Except String Vault

/-- Ephemeral key pair `LocalKeyPair` (crypto.rs line 46): wraps the X25519
private key material. -/
structure LocalKeyPair where
  priv : Bytes
deriving DecidableEq, Repr

/-- Free function `hkdf` from crypto.rs lines 127-134: extract with the salt,
expand with empty info to an AES-256-GCM key; expansion failure is
`Error::KeyExpansion`. -/
def hkdf (P : CryptoPrimitives) (shared_secret salt : Bytes) : Except Error Bytes :=
  match P.hkdfSha256Expand salt shared_secret with
  | none => Except.error Error.KeyExpansion
  | some key => Except.ok key

/-- Method `LocalKeyPair::to_open_box` from crypto.rs lines 56-60. -/
def LocalKeyPair.to_open_box (P : CryptoPrimitives) (kp : LocalKeyPair) : Option OpenBox :=
  (P.computePublicKey kp.priv).map (fun pub_key => { public_key := pub_key })

/-- Method `LocalKeyPair::seal` from crypto.rs lines 62-101.  The two
`rng.fill` draws are modelled by the explicit `salt_bytes` (32 random bytes in
Rust) and `nonce_bytes` (12 random bytes) arguments, covering the executions
in which the CSPRNG succeeds.  `serde_json::to_vec` is total for this schema,
matching the source's `expect`.  Agreement failure maps to
`Error::ParsingPeerKey` (the `error_value` passed to `agree_ephemeral`), HKDF
failure to `Error::KeyExpansion`, AEAD failure to `Error::Sealing`. -/
def LocalKeyPair.seal (P : CryptoPrimitives) (kp : LocalKeyPair) (open_box : OpenBox)
    (vault : Vault) (salt_bytes nonce_bytes : Bytes) : RustResult SealedBox :=
  match P.computePublicKey kp.priv with
  | none => RustResult.err Error.GeneratingPubKey
  | some public_key =>
    match P.agree kp.priv open_box.public_key with
    | none => RustResult.err Error.ParsingPeerKey
    | some shared_secret =>
      match hkdf P shared_secret salt_bytes with
      | Except.error e => RustResult.err e
      | Except.ok key =>
        let encoded_vault := P.serializeVault vault
        match P.aesGcmSealTag key nonce_bytes encoded_vault with
        | none => RustResult.err Error.Sealing
        | some (ciphertext, tag) =>
          RustResult.ok
            { public_key := public_key
              encrypted_vault := ciphertext
              key_derivation_salt := salt_bytes
              encryption_nonce := nonce_bytes
              authentication_tag := tag }

/-- Method `LocalKeyPair::open` from crypto.rs lines 103-124.
`Nonce::try_assume_unique_for_key` panics via `expect` unless the nonce field
is exactly 12 bytes.  The `error_value` handed to `agree_ephemeral` here is
`Error::KeyExpansion` (line 110), so agreement failure and HKDF failure yield
the same error kind.  The ciphertext and tag are concatenated in that order
before `open_in_place`; AEAD failure is `Error::Opening`, and
`serde_json::from_slice` failure is `Error::Decoding`. -/
def LocalKeyPair.«open» (P : CryptoPrimitives) (kp : LocalKeyPair)
    (sealed : SealedBox) : RustResult Vault :=
  if sealed.encryption_nonce.length = 12 then
    match P.agree kp.priv sealed.public_key with
    | none => RustResult.err Error.KeyExpansion
    | some shared_secret =>
      match hkdf P shared_secret sealed.key_derivation_salt with
      | Except.error e => RustResult.err e
      | Except.ok key =>
        match P.aesGcmOpen key sealed.encryption_nonce
            (sealed.encrypted_vault ++ sealed.authentication_tag) with
        | none => RustResult.err Error.Opening
        | some decrypted_vault =>
          match P.deserializeVault decrypted_vault with
          | Except.error msg => RustResult.err (Error.Decoding msg)
          | Except.ok vault => RustResult.ok vault
  else
    RustResult.panicked ("Garanteed to be 12 due to split above")

/-- Inversion of a successful `seal`: the fields of the produced `SealedBox`
and the intermediate primitive calls it made. -/
theorem seal_ok_fields {P : CryptoPrimitives} {kp : LocalKeyPair} {ob : OpenBox}
    {v : Vault} {salt nonce : Bytes} {sb : SealedBox}
    (h : LocalKeyPair.seal P kp ob v salt nonce = RustResult.ok sb) :
    sb.key_derivation_salt = salt ∧ sb.encryption_nonce = nonce ∧
    ∃ pk ss key, P.computePublicKey kp.priv = some pk ∧ sb.public_key = pk ∧
      P.agree kp.priv ob.public_key = some ss ∧
      P.hkdfSha256Expand salt ss = some key ∧
      P.aesGcmSealTag key nonce (P.serializeVault v) =
        some (sb.encrypted_vault, sb.authentication_tag) := by
  unfold LocalKeyPair.seal hkdf at h
  cases hpk : P.computePublicKey kp.priv with
  | none => simp [hpk] at h
  | some pk =>
    simp only [hpk] at h
    cases hss : P.agree kp.priv ob.public_key with
    | none => simp [hss] at h
    | some ss =>
      simp only [hss] at h
      cases hkey : P.hkdfSha256Expand salt ss with
      | none => simp [hkey] at h
      | some key =>
        simp only [hkey] at h
        cases htag : P.aesGcmSealTag key nonce (P.serializeVault v) with
        | none => simp [htag] at h
        | some ct =>
          simp only [htag] at h
          simp only [RustResult.ok.injEq] at h
          subst h
          exact ⟨rfl, rfl, pk, ss, key, rfl, rfl, rfl, hkey, htag⟩

/-- C1: for every vault V and key pairs A (exporting) and B (importing),
sealing V with A against B's announcement and opening the result with B
returns exactly V.  The X25519 agreement producing the same shared secret on
both sides, the AEAD opening what it sealed, and JSON round-tripping the vault
are the contracts of the external primitives, stated as hypotheses at the
concrete points used; the theorem verifies that `seal` and `open` wire the
fields, salts, nonces, ciphertext/tag concatenation and error plumbing so
that those contracts yield `open_B(seal_A(announce_B, V)) = V`. -/
theorem seal_open_roundtrip
    (P : CryptoPrimitives) (kpA kpB : LocalKeyPair) (ob : OpenBox) (v : Vault)
    (salt nonce : Bytes) (sb : SealedBox) (ss key : Bytes)
    (hob : LocalKeyPair.to_open_box P kpB = some ob)
    (hnonce : nonce.length = 12)
    (hseal : LocalKeyPair.seal P kpA ob v salt nonce = RustResult.ok sb)
    (hssA : P.agree kpA.priv ob.public_key = some ss)
    (hssB : P.agree kpB.priv sb.public_key = some ss)
    (hkey : P.hkdfSha256Expand salt ss = some key)
    (haead : P.aesGcmOpen key nonce (sb.encrypted_vault ++ sb.authentication_tag)
        = some (P.serializeVault v))
    (hser : P.deserializeVault (P.serializeVault v) = Except.ok v) :
    LocalKeyPair.«open» P kpB sb = RustResult.ok v := by
  obtain ⟨hsalt, hnon, pk, ss2, key2, hpk, hpub, hss2, hkey2, htag⟩ := seal_ok_fields hseal
  have hss2' : ss2 = ss := by rw [hssA] at hss2; exact (Option.some.inj hss2).symm
  subst hss2'
  unfold LocalKeyPair.«open» hkdf
  rw [if_pos (by rw [hnon]; exact hnonce)]
  rw [hsalt, hnon]
  simp only [hssB, hkey, haead, hser]

/-- Toy instantiation of the external primitives, used only to witness the
theorems at concrete inputs: public key = private key, agreement = sum of
both byte strings mod 256 (symmetric), HKDF = salt concatenated with the
secret, AEAD = shift bytes by one with the key-plus-nonce as tag, vault
serialization = passkey count. -/
def toyPrim : CryptoPrimitives where
  computePublicKey p := some p
  agree p q := some [(p.foldr (fun a b => a + b) 0 + q.foldr (fun a b => a + b) 0) % 256]
  hkdfSha256Expand salt ikm := some (salt ++ ikm)
  aesGcmSealTag key nonce msg := some (msg.map (fun b => (b + 1) % 256), key ++ nonce)
  aesGcmOpen key nonce x :=
    if x.drop (x.length - (key.length + nonce.length)) = key ++ nonce then
      some ((x.take (x.length - (key.length + nonce.length))).map (fun b => (b + 255) % 256))
    else none
  serializeVault v := [v.passkeys.length % 256]
  deserializeVault b := if b = [0] then Except.ok { passkeys := [] } else Except.error ("bad json")

/-- Concrete exporting key pair for witnesses. -/
def kpA0 : LocalKeyPair := ⟨[1]⟩

/-- Concrete importing key pair for witnesses. -/
def kpB0 : LocalKeyPair := ⟨[2]⟩

/-- Concrete announcement of `kpB0` under `toyPrim`. -/
def ob0 : OpenBox := ⟨[2]⟩

/-- Concrete empty vault for witnesses. -/
def v0 : Vault := ⟨[]⟩

/-- Concrete 12-byte nonce. -/
def nonce0 : Bytes := List.replicate 12 0

/-- Concrete sealed box: the value of `seal toyPrim kpA0 ob0 v0 [5] nonce0`. -/
def sb0 : SealedBox := ⟨[1], [1], [5], nonce0, 5 :: 3 :: nonce0⟩

/-- Witness for C1: all hypotheses of `seal_open_roundtrip` hold at the toy
primitives and concrete keys, and the round trip returns the vault. -/
theorem seal_open_roundtrip_witness :
    (LocalKeyPair.to_open_box toyPrim kpB0 = some ob0 ∧
     nonce0.length = 12 ∧
     LocalKeyPair.seal toyPrim kpA0 ob0 v0 [5] nonce0 = RustResult.ok sb0 ∧
     toyPrim.agree kpA0.priv ob0.public_key = some [3] ∧
     toyPrim.agree kpB0.priv sb0.public_key = some [3] ∧
     toyPrim.hkdfSha256Expand [5] [3] = some [5, 3] ∧
     toyPrim.aesGcmOpen [5, 3] nonce0 (sb0.encrypted_vault ++ sb0.authentication_tag)
       = some (toyPrim.serializeVault v0) ∧
     toyPrim.deserializeVault (toyPrim.serializeVault v0) = Except.ok v0) ∧
    LocalKeyPair.«open» toyPrim kpB0 sb0 = RustResult.ok v0 :=
  ⟨⟨by decide, by decide, by decide, by decide, by decide, by decide, by decide, by decide⟩,
   seal_open_roundtrip toyPrim kpA0 kpB0 ob0 v0 [5] nonce0 sb0 [3] [5, 3]
     (by decide) (by decide) (by decide) (by decide) (by decide) (by decide)
     (by decide) (by decide)⟩

/-- Field selector for tampering with a sealed box. -/
inductive TamperedField where
  | vault
  | tag
  | nonce
deriving DecidableEq, Repr

/-- Flip bit `i` of a byte string (bit `i % 8` of byte `i / 8`). -/
def flipBit (bs : Bytes) (i : Nat) : Bytes :=
  bs.set (i / 8) ((bs.getD (i / 8) 0) ^^^ (1 <<< (i % 8)))

/-- Flip one bit of the selected field of a sealed box. -/
def tamper (sb : SealedBox) : TamperedField → Nat → SealedBox
  | TamperedField.vault, i => { sb with encrypted_vault := flipBit sb.encrypted_vault i }
  | TamperedField.tag, i => { sb with authentication_tag := flipBit sb.authentication_tag i }
  | TamperedField.nonce, i => { sb with encryption_nonce := flipBit sb.encryption_nonce i }

theorem flipBit_length (bs : Bytes) (i : Nat) : (flipBit bs i).length = bs.length := by
  simp [flipBit]

theorem tamper_nonce_length (sb : SealedBox) (f : TamperedField) (i : Nat) :
    (tamper sb f i).encryption_nonce.length = sb.encryption_nonce.length := by
  cases f <;> simp [tamper, flipBit_length]

/-- C3: flipping any single bit of `encrypted_vault`, `authentication_tag` or
`encryption_nonce` of a box produced by a successful seal makes `open` (with
the matching key pair) fail with `Error::Opening`, the AEAD
authentication-failure kind, and never return plaintext.  That AES-256-GCM
rejects the tampered ciphertext/tag/nonce combination is the AEAD primitive's
authentication contract, stated as the hypothesis `hrej`; the theorem verifies
that `open` then yields exactly `Error::Opening` and no vault. -/
theorem tamper_detection
    (P : CryptoPrimitives) (kpA kpB : LocalKeyPair) (ob : OpenBox) (v : Vault)
    (salt nonce : Bytes) (sb : SealedBox) (f : TamperedField) (i : Nat) (ss key : Bytes)
    (hnonce : nonce.length = 12)
    (hseal : LocalKeyPair.seal P kpA ob v salt nonce = RustResult.ok sb)
    (hss : P.agree kpB.priv (tamper sb f i).public_key = some ss)
    (hkey : P.hkdfSha256Expand (tamper sb f i).key_derivation_salt ss = some key)
    (hrej : P.aesGcmOpen key (tamper sb f i).encryption_nonce
        ((tamper sb f i).encrypted_vault ++ (tamper sb f i).authentication_tag) = none) :
    LocalKeyPair.«open» P kpB (tamper sb f i) = RustResult.err Error.Opening := by
  obtain ⟨hsalt, hnon, _, _, _, _, _, _, _, _⟩ := seal_ok_fields hseal
  unfold LocalKeyPair.«open» hkdf
  rw [if_pos (by rw [tamper_nonce_length, hnon]; exact hnonce)]
  simp only [hss, hkey, hrej]

/-- Witness for C3: flipping bit 0 of the authentication tag of the concrete
sealed box `sb0` makes `open` fail with `Error::Opening`. -/
theorem tamper_detection_witness :
    (nonce0.length = 12 ∧
     LocalKeyPair.seal toyPrim kpA0 ob0 v0 [5] nonce0 = RustResult.ok sb0 ∧
     toyPrim.agree kpB0.priv (tamper sb0 TamperedField.tag 0).public_key = some [3] ∧
     toyPrim.hkdfSha256Expand (tamper sb0 TamperedField.tag 0).key_derivation_salt [3]
       = some [5, 3] ∧
     toyPrim.aesGcmOpen [5, 3] (tamper sb0 TamperedField.tag 0).encryption_nonce
       ((tamper sb0 TamperedField.tag 0).encrypted_vault ++
         (tamper sb0 TamperedField.tag 0).authentication_tag) = none) ∧
    LocalKeyPair.«open» toyPrim kpB0 (tamper sb0 TamperedField.tag 0)
      = RustResult.err Error.Opening :=
  ⟨⟨by decide, by decide, by decide, by decide, by decide⟩,
   tamper_detection toyPrim kpA0 kpB0 ob0 v0 [5] nonce0 sb0 TamperedField.tag 0 [3] [5, 3]
     (by decide) (by decide) (by decide) (by decide) (by decide)⟩

/-- Primitives whose agreement mirrors X25519's structural check: a peer
public key that is not exactly 32 bytes is rejected. -/
def x25519CheckPrim : CryptoPrimitives :=
  { toyPrim with agree := fun p q => if q.length = 32 then toyPrim.agree p q else none }

/-- Primitives whose HKDF expansion always fails, isolating the derivation
failure step. -/
def hkdfFailPrim : CryptoPrimitives :=
  { toyPrim with hkdfSha256Expand := fun _ _ => none }

/-- Sealed box whose embedded peer public key is structurally invalid for
X25519 (2 bytes instead of 32). -/
def badPeerSealedBox : SealedBox := ⟨[9, 9], [1], [5], nonce0, [0]⟩

/-- Sealed box whose embedded peer public key is structurally valid
(32 bytes). -/
def wellFormedSealedBox : SealedBox := ⟨List.replicate 32 7, [1], [5], nonce0, [0]⟩

/-- C4: the code collapses the error kinds the claim requires to be distinct.
`open` passes `Error::KeyExpansion` as the `error_value` of `agree_ephemeral`
(crypto.rs line 110), so a key-agreement failure on a structurally invalid
peer public key yields the very same error value as an HKDF derivation
failure — while `seal` reports the same invalid peer key as
`Error::ParsingPeerKey`. -/
theorem open_collapses_agreement_and_derivation_errors :
    LocalKeyPair.«open» x25519CheckPrim kpB0 badPeerSealedBox
      = RustResult.err Error.KeyExpansion ∧
    LocalKeyPair.«open» hkdfFailPrim kpB0 wellFormedSealedBox
      = RustResult.err Error.KeyExpansion ∧
    LocalKeyPair.seal x25519CheckPrim kpA0 (OpenBox.mk [9, 9]) v0 [5] nonce0
      = RustResult.err Error.ParsingPeerKey := by
  decide

/-- Sealed box with a 1-byte nonce field, as the wire decoder may produce
(base64 fields decode to any length). -/
def badNonceSealedBox : SealedBox := ⟨[1], [1], [5], [0], [0]⟩

/-- C10: with a 12-byte `encryption_nonce`, `open` always returns `Ok` or one
of the declared error kinds; with a nonce of any other length it panics (the
`expect` on `Nonce::try_assume_unique_for_key` in crypto.rs lines 107-108)
instead of returning an error. -/
theorem open_nonce_length_behavior (P : CryptoPrimitives) (kp : LocalKeyPair)
    (sb : SealedBox) :
    (sb.encryption_nonce.length = 12 →
      (∃ v, LocalKeyPair.«open» P kp sb = RustResult.ok v) ∨
      (∃ e, LocalKeyPair.«open» P kp sb = RustResult.err e)) ∧
    (sb.encryption_nonce.length ≠ 12 →
      LocalKeyPair.«open» P kp sb
        = RustResult.panicked ("Garanteed to be 12 due to split above")) := by
  constructor
  · intro h12
    cases hss : P.agree kp.priv sb.public_key with
    | none =>
      exact Or.inr ⟨Error.KeyExpansion, by simp [LocalKeyPair.«open», hkdf, h12, hss]⟩
    | some ss =>
      cases hkey : P.hkdfSha256Expand sb.key_derivation_salt ss with
      | none =>
        exact Or.inr ⟨Error.KeyExpansion, by simp [LocalKeyPair.«open», hkdf, h12, hss, hkey]⟩
      | some key =>
        cases haead : P.aesGcmOpen key sb.encryption_nonce
            (sb.encrypted_vault ++ sb.authentication_tag) with
        | none =>
          exact Or.inr ⟨Error.Opening, by simp [LocalKeyPair.«open», hkdf, h12, hss, hkey, haead]⟩
        | some pt =>
          cases hdec : P.deserializeVault pt with
          | error msg =>
            exact Or.inr ⟨Error.Decoding msg,
              by simp [LocalKeyPair.«open», hkdf, h12, hss, hkey, haead, hdec]⟩
          | ok vault =>
            exact Or.inl ⟨vault,
              by simp [LocalKeyPair.«open», hkdf, h12, hss, hkey, haead, hdec]⟩
  · intro hne
    unfold LocalKeyPair.«open»
    rw [if_neg hne]

/-- Witness for C10: the 12-byte-nonce box `sb0` opens without a panic, and
the 1-byte-nonce box panics. -/
theorem open_nonce_length_behavior_witness :
    (sb0.encryption_nonce.length = 12 ∧
      ((∃ v, LocalKeyPair.«open» toyPrim kpB0 sb0 = RustResult.ok v) ∨
       (∃ e, LocalKeyPair.«open» toyPrim kpB0 sb0 = RustResult.err e))) ∧
    (badNonceSealedBox.encryption_nonce.length ≠ 12 ∧
      LocalKeyPair.«open» toyPrim kpB0 badNonceSealedBox
        = RustResult.panicked ("Garanteed to be 12 due to split above")) :=
  ⟨⟨by decide, (open_nonce_length_behavior toyPrim kpB0 sb0).1 (by decide)⟩,
   ⟨by decide, (open_nonce_length_behavior toyPrim kpB0 badNonceSealedBox).2 (by decide)⟩⟩

/-- Standard base64 alphabet (RFC 4648), the alphabet of data_encoding's
`BASE64` and `BASE64_NOPAD` used in schema.rs. -/
def B64_CHARS : List Char :=
  "ABCDEFGHIJKLMNOPQRSTUVWXYZabcdefghijklmnopqrstuvwxyz0123456789+/".data

/-- URL-safe base64 alphabet (RFC 4648), the alphabet of data_encoding's
`BASE64URL` used in schema.rs. -/
def B64URL_CHARS : List Char :=
  "ABCDEFGHIJKLMNOPQRSTUVWXYZabcdefghijklmnopqrstuvwxyz0123456789-_".data

/-- Character of a sextet in the standard alphabet. -/
def b64Char (s : Nat) : Char := B64_CHARS.getD s 'A'

/-- Character of a sextet in the URL-safe alphabet. -/
def b64urlChar (s : Nat) : Char := B64URL_CHARS.getD s 'A'

/-- Sextet of a character in the standard alphabet (none when invalid). -/
def b64Sextet (c : Char) : Option Nat := B64_CHARS.findIdx? (fun d => d == c)

/-- Sextet of a character in the URL-safe alphabet (none when invalid). -/
def b64urlSextet (c : Char) : Option Nat := B64URL_CHARS.findIdx? (fun d => d == c)

/-- Split bytes into base64 sextets (RFC 4648 bit packing, as performed by
data_encoding's encoder). -/
def bytesToSextets : List Nat → List Nat
  | [] => []
  | [b0] => [b0 / 4, b0 % 4 * 16]
  | [b0, b1] => [b0 / 4, b0 % 4 * 16 + b1 / 16, b1 % 16 * 4]
  | b0 :: b1 :: b2 :: rest =>
      b0 / 4 :: (b0 % 4 * 16 + b1 / 16) :: (b1 % 16 * 4 + b2 / 64) :: b2 % 64 ::
        bytesToSextets rest

/-- Reassemble bytes from base64 sextets, as performed by data_encoding's
unpadded decoder: a trailing group of one sextet is a length error, and with
`strict` set (data_encoding's default `check_trailing_bits`) nonzero trailing
bits of the final group are rejected. -/
def sextetsToBytes (strict : Bool) : List Nat → Option (List Nat)
  | [] => some []
  | [_] => none
  | [s0, s1] =>
      if strict = true ∧ s1 % 16 ≠ 0 then none
      else some [s0 * 4 + s1 / 16]
  | [s0, s1, s2] =>
      if strict = true ∧ s2 % 4 ≠ 0 then none
      else some [s0 * 4 + s1 / 16, s1 % 16 * 16 + s2 / 4]
  | s0 :: s1 :: s2 :: s3 :: rest =>
      (sextetsToBytes strict rest).map
        (fun tail => (s0 * 4 + s1 / 16) :: (s1 % 16 * 16 + s2 / 4) :: (s2 % 4 * 64 + s3) :: tail)

/-- Decode every character to a sextet through an alphabet's inverse, failing
on the first invalid character. -/
def decodeSextets (inv : Char → Option Nat) : List Char → Option (List Nat)
  | [] => some []
  | c :: cs =>
    match inv c with
    | none => none
    | some s => (decodeSextets inv cs).map (fun rest => s :: rest)

/-- Rust's `input.trim_end_matches(padding)` with padding character: drop all
trailing occurrences of the padding character.  In schema.rs the padding
character is always the base64 pad character. -/
def trim_end_eq (cs : List Char) : List Char :=
  (cs.reverse.dropWhile (fun c => c == '=')).reverse

/-- RFC 4648 base64 encoder over a given alphabet, optionally padded to a
multiple of four characters — the behaviour of data_encoding's `encode` for
the four dialects named by the spec. -/
def encodeWith (alpha : Nat → Char) (padded : Bool) (b : Bytes) : String :=
  String.mk ((bytesToSextets b).map alpha ++
    (if padded then List.replicate ((4 - ((bytesToSextets b).map alpha).length % 4) % 4) '='
     else []))

/-- Function `base64` from schema.rs lines 117-120: `BASE64.encode`, the
canonical (padded, standard-alphabet) encoder. -/
def base64 (data : Bytes) : String := encodeWith b64Char true data

/-- Function `try_from_base64` from schema.rs lines 122-127: strip trailing
padding characters, then decode with `BASE64_NOPAD` (strict trailing-bit
check). -/
def try_from_base64 (input : String) : Option Bytes :=
  (decodeSextets b64Sextet (trim_end_eq input.data)).bind (sextetsToBytes true)

/-- Function `try_from_base64url` from schema.rs lines 129-141: strip trailing
padding characters, then decode with the URL-safe alphabet, padding disabled
and `check_trailing_bits` disabled. -/
def try_from_base64url (input : String) : Option Bytes :=
  (decodeSextets b64urlSextet (trim_end_eq input.data)).bind (sextetsToBytes false)

/-- The `base64::deserialize` decode logic of schema.rs lines 105-114:
`try_from_base64` and, failing that, `try_from_base64url`. -/
def base64_deserialize (input : String) : Option Bytes :=
  (try_from_base64 input).orElse (fun _ => try_from_base64url input)

/-- Reassembling the sextets of a byte string recovers the bytes, in both
strict and permissive trailing-bit modes (the trailing bits of a canonical
encoding are zero). -/
theorem sextetsToBytes_bytesToSextets (strict : Bool) :
    ∀ bs : List Nat, (∀ x ∈ bs, x < 256) →
      sextetsToBytes strict (bytesToSextets bs) = some bs
  | [], _ => rfl
  | [b0], h => by
      have h0 : b0 < 256 := h b0 (by simp)
      simp only [bytesToSextets, sextetsToBytes]
      rw [if_neg (fun hc => hc.2 (by omega))]
      simp only [Option.some.injEq, List.cons.injEq, and_true]
      omega
  | [b0, b1], h => by
      have h0 : b0 < 256 := h b0 (by simp)
      have h1 : b1 < 256 := h b1 (by simp)
      simp only [bytesToSextets, sextetsToBytes]
      rw [if_neg (fun hc => hc.2 (by omega))]
      simp only [Option.some.injEq, List.cons.injEq, and_true]
      constructor
      · omega
      · omega
  | b0 :: b1 :: b2 :: rest, h => by
      have h0 : b0 < 256 := h b0 (by simp)
      have h1 : b1 < 256 := h b1 (by simp)
      have h2 : b2 < 256 := h b2 (by simp)
      have ih := sextetsToBytes_bytesToSextets strict rest (fun x hx => h x (by simp [hx]))
      simp only [bytesToSextets, sextetsToBytes, ih]
      simp only [Option.map_some', Option.some.injEq, List.cons.injEq, and_true]
      refine ⟨by omega, by omega, by omega⟩

/-- Every sextet produced from bytes below 256 is below 64. -/
theorem bytesToSextets_lt : ∀ bs : List Nat, (∀ x ∈ bs, x < 256) →
    ∀ s ∈ bytesToSextets bs, s < 64
  | [], _ => by
      intro s hs
      simp [bytesToSextets] at hs
  | [b0], h => by
      have h0 : b0 < 256 := h b0 (by simp)
      intro s hs
      simp only [bytesToSextets, List.mem_cons, List.not_mem_nil, or_false] at hs
      rcases hs with rfl | rfl <;> omega
  | [b0, b1], h => by
      have h0 : b0 < 256 := h b0 (by simp)
      have h1 : b1 < 256 := h b1 (by simp)
      intro s hs
      simp only [bytesToSextets, List.mem_cons, List.not_mem_nil, or_false] at hs
      rcases hs with rfl | rfl | rfl <;> omega
  | b0 :: b1 :: b2 :: rest, h => by
      have h0 : b0 < 256 := h b0 (by simp)
      have h1 : b1 < 256 := h b1 (by simp)
      have h2 : b2 < 256 := h b2 (by simp)
      have ih := bytesToSextets_lt rest (fun x hx => h x (by simp [hx]))
      intro s hs
      simp only [bytesToSextets, List.mem_cons] at hs
      rcases hs with rfl | rfl | rfl | rfl | hs
      · omega
      · omega
      · omega
      · omega
      · exact ih s hs

/-- The standard alphabet inverts its own encoder on every sextet. -/
theorem b64_inv : ∀ s : Nat, s < 64 → b64Sextet (b64Char s) = some s := by decide

/-- The URL-safe alphabet inverts its own encoder on every sextet. -/
theorem b64url_inv : ∀ s : Nat, s < 64 → b64urlSextet (b64urlChar s) = some s := by decide

/-- A URL-safe character either decodes to the same sextet in the standard
alphabet (the two alphabets agree below 62) or is rejected by it. -/
theorem b64_of_url : ∀ s : Nat, s < 64 →
    b64Sextet (b64urlChar s) = some s ∨ b64Sextet (b64urlChar s) = none := by decide

/-- No standard-alphabet character is the padding character. -/
theorem b64Char_ne_pad : ∀ s : Nat, s < 64 → b64Char s ≠ '=' := by decide

/-- No URL-safe-alphabet character is the padding character. -/
theorem b64urlChar_ne_pad : ∀ s : Nat, s < 64 → b64urlChar s ≠ '=' := by decide

/-- Decoding the character image of a sextet list through a full inverse
recovers the list. -/
theorem decodeSextets_map {inv : Char → Option Nat} {f : Nat → Char} :
    ∀ l : List Nat, (∀ s ∈ l, inv (f s) = some s) →
      decodeSextets inv (l.map f) = some l
  | [], _ => rfl
  | s :: rest, h => by
      have ih := decodeSextets_map rest (fun x hx => h x (by simp [hx]))
      simp [List.map_cons, decodeSextets, h s (by simp), ih]

/-- Decoding the character image of a sextet list through a partial inverse
can only succeed with the original list. -/
theorem decodeSextets_map_partial {inv : Char → Option Nat} {f : Nat → Char} :
    ∀ l l' : List Nat, (∀ s ∈ l, inv (f s) = some s ∨ inv (f s) = none) →
      decodeSextets inv (l.map f) = some l' → l' = l
  | [], l', _, h => by simpa [decodeSextets] using h.symm
  | s :: rest, l', hinv, h => by
      rcases hinv s (by simp) with hs | hs
      · simp only [List.map_cons, decodeSextets, hs] at h
        cases hdec : decodeSextets inv (rest.map f) with
        | none => rw [hdec] at h; simp at h
        | some tail =>
          rw [hdec] at h
          simp only [Option.map_some', Option.some.injEq] at h
          have htail : tail = rest :=
            decodeSextets_map_partial rest tail (fun x hx => hinv x (by simp [hx])) hdec
          rw [← h, htail]
      · simp [List.map_cons, decodeSextets, hs] at h

/-- Dropping pad characters from a pad prefix reaches the remainder. -/
theorem dropWhile_pad_replicate : ∀ (k : Nat) (l : List Char),
    List.dropWhile (fun c => c == '=') (List.replicate k '=' ++ l)
      = List.dropWhile (fun c => c == '=') l
  | 0, l => by simp
  | k + 1, l => by
      simp only [List.replicate, List.cons_append, List.dropWhile_cons]
      simpa using dropWhile_pad_replicate k l

/-- Stripping trailing padding from a pad-free string followed by padding
returns the string. -/
theorem trim_end_eq_append_replicate (cs : List Char) (k : Nat)
    (h : ∀ c ∈ cs, c ≠ '=') :
    trim_end_eq (cs ++ List.replicate k '=') = cs := by
  unfold trim_end_eq
  rw [List.reverse_append, List.reverse_replicate, dropWhile_pad_replicate]
  cases hrev : cs.reverse with
  | nil => simpa using congrArg List.reverse hrev.symm
  | cons c t =>
      have hc : c ∈ cs := by
        have hm : c ∈ cs.reverse := by rw [hrev]; exact List.mem_cons_self c t
        simpa using hm
      rw [List.dropWhile_cons, if_neg (by simp [h c hc]), ← hrev, List.reverse_reverse]

/-- The `try_from_base64` decoder accepts the standard-alphabet encoding of
any byte string, padded or not, and recovers the bytes. -/
theorem try_from_base64_encodeWith (b : Bytes) (hb : ∀ x ∈ b, x < 256) (padded : Bool) :
    try_from_base64 (encodeWith b64Char padded b) = some b := by
  have hlt := bytesToSextets_lt b hb
  have hne : ∀ c ∈ (bytesToSextets b).map b64Char, c ≠ '=' := by
    intro c hc
    obtain ⟨s, hs, rfl⟩ := List.mem_map.mp hc
    exact b64Char_ne_pad s (hlt s hs)
  unfold try_from_base64 encodeWith
  have htrim : trim_end_eq ((bytesToSextets b).map b64Char ++
      (if padded then
        List.replicate ((4 - ((bytesToSextets b).map b64Char).length % 4) % 4) '='
      else [])) = (bytesToSextets b).map b64Char := by
    cases padded with
    | false => simpa using trim_end_eq_append_replicate ((bytesToSextets b).map b64Char) 0 hne
    | true => exact trim_end_eq_append_replicate _ _ hne
  rw [show (String.mk ((bytesToSextets b).map b64Char ++
      (if padded then
        List.replicate ((4 - ((bytesToSextets b).map b64Char).length % 4) % 4) '='
      else []))).data = (bytesToSextets b).map b64Char ++
      (if padded then
        List.replicate ((4 - ((bytesToSextets b).map b64Char).length % 4) % 4) '='
      else []) from rfl, htrim,
    decodeSextets_map (bytesToSextets b) (fun s hs => b64_inv s (hlt s hs))]
  exact sextetsToBytes_bytesToSextets true b hb

/-- The `try_from_base64url` decoder accepts the URL-safe encoding of any byte
string, padded or not, and recovers the bytes. -/
theorem try_from_base64url_encodeWith (b : Bytes) (hb : ∀ x ∈ b, x < 256) (padded : Bool) :
    try_from_base64url (encodeWith b64urlChar padded b) = some b := by
  have hlt := bytesToSextets_lt b hb
  have hne : ∀ c ∈ (bytesToSextets b).map b64urlChar, c ≠ '=' := by
    intro c hc
    obtain ⟨s, hs, rfl⟩ := List.mem_map.mp hc
    exact b64urlChar_ne_pad s (hlt s hs)
  unfold try_from_base64url encodeWith
  have htrim : trim_end_eq ((bytesToSextets b).map b64urlChar ++
      (if padded then
        List.replicate ((4 - ((bytesToSextets b).map b64urlChar).length % 4) % 4) '='
      else [])) = (bytesToSextets b).map b64urlChar := by
    cases padded with
    | false =>
      simpa using trim_end_eq_append_replicate ((bytesToSextets b).map b64urlChar) 0 hne
    | true => exact trim_end_eq_append_replicate _ _ hne
  rw [show (String.mk ((bytesToSextets b).map b64urlChar ++
      (if padded then
        List.replicate ((4 - ((bytesToSextets b).map b64urlChar).length % 4) % 4) '='
      else []))).data = (bytesToSextets b).map b64urlChar ++
      (if padded then
        List.replicate ((4 - ((bytesToSextets b).map b64urlChar).length % 4) % 4) '='
      else []) from rfl, htrim,
    decodeSextets_map (bytesToSextets b) (fun s hs => b64url_inv s (hlt s hs))]
  exact sextetsToBytes_bytesToSextets false b hb

/-- The combined decode accepts standard-alphabet encodings directly. -/
theorem base64_deserialize_std (b : Bytes) (hb : ∀ x ∈ b, x < 256) (padded : Bool) :
    base64_deserialize (encodeWith b64Char padded b) = some b := by
  unfold base64_deserialize
  rw [try_from_base64_encodeWith b hb padded]
  rfl

/-- The combined decode accepts URL-safe encodings: either the standard
decoder rejects a URL-specific character and the URL decoder recovers the
bytes, or every character is shared by both alphabets and the standard decoder
already recovers the same bytes. -/
theorem base64_deserialize_url (b : Bytes) (hb : ∀ x ∈ b, x < 256) (padded : Bool) :
    base64_deserialize (encodeWith b64urlChar padded b) = some b := by
  have hlt := bytesToSextets_lt b hb
  unfold base64_deserialize
  cases htry : try_from_base64 (encodeWith b64urlChar padded b) with
  | none =>
    simp only [Option.orElse]
    exact try_from_base64url_encodeWith b hb padded
  | some v =>
    have hne : ∀ c ∈ (bytesToSextets b).map b64urlChar, c ≠ '=' := by
      intro c hc
      obtain ⟨s, hs, rfl⟩ := List.mem_map.mp hc
      exact b64urlChar_ne_pad s (hlt s hs)
    have hv : v = b := by
      unfold try_from_base64 encodeWith at htry
      rw [show (String.mk ((bytesToSextets b).map b64urlChar ++
          (if padded then
            List.replicate ((4 - ((bytesToSextets b).map b64urlChar).length % 4) % 4) '='
          else []))).data = (bytesToSextets b).map b64urlChar ++
          (if padded then
            List.replicate ((4 - ((bytesToSextets b).map b64urlChar).length % 4) % 4) '='
          else []) from rfl] at htry
      rw [show trim_end_eq ((bytesToSextets b).map b64urlChar ++
          (if padded then
            List.replicate ((4 - ((bytesToSextets b).map b64urlChar).length % 4) % 4) '='
          else [])) = (bytesToSextets b).map b64urlChar from by
        cases padded with
        | false =>
          simpa using trim_end_eq_append_replicate ((bytesToSextets b).map b64urlChar) 0 hne
        | true => exact trim_end_eq_append_replicate _ _ hne] at htry
      cases hdec : decodeSextets b64Sextet ((bytesToSextets b).map b64urlChar) with
      | none => rw [hdec] at htry; simp at htry
      | some sexts =>
        have hsx : sexts = bytesToSextets b :=
          decodeSextets_map_partial (bytesToSextets b) sexts
            (fun s hs => b64_of_url s (hlt s hs)) hdec
        rw [hdec, hsx] at htry
        have hrt := sextetsToBytes_bytesToSextets true b hb
        simp only [Option.some_bind] at htry
        rw [hrt] at htry
        exact (Option.some.inj htry).symm
    simp [Option.orElse, hv]

/-- C6: the codec's decode (`base64::deserialize`, i.e. `try_from_base64`
falling back to `try_from_base64url`) accepts all dialect encodings of any
byte string — padded base64, unpadded base64, padded base64url and unpadded
base64url — and returns exactly the original bytes in each case; in
particular it decodes the canonical output of the `base64` encoder. -/
theorem codec_tolerance (b : Bytes) (hb : ∀ x ∈ b, x < 256) :
    base64_deserialize (encodeWith b64Char true b) = some b ∧
    base64_deserialize (encodeWith b64Char false b) = some b ∧
    base64_deserialize (encodeWith b64urlChar true b) = some b ∧
    base64_deserialize (encodeWith b64urlChar false b) = some b ∧
    base64_deserialize (base64 b) = some b :=
  ⟨base64_deserialize_std b hb true, base64_deserialize_std b hb false,
   base64_deserialize_url b hb true, base64_deserialize_url b hb false,
   base64_deserialize_std b hb true⟩

/-- Witness for C6 at the concrete byte string `[0, 77, 255]`, whose encodings
exercise padding and both URL-specific alphabet characters. -/
theorem codec_tolerance_witness :
    (∀ x ∈ ([0, 77, 255] : Bytes), x < 256) ∧
    (base64_deserialize (encodeWith b64Char true [0, 77, 255]) = some [0, 77, 255] ∧
     base64_deserialize (encodeWith b64Char false [0, 77, 255]) = some [0, 77, 255] ∧
     base64_deserialize (encodeWith b64urlChar true [0, 77, 255]) = some [0, 77, 255] ∧
     base64_deserialize (encodeWith b64urlChar false [0, 77, 255]) = some [0, 77, 255] ∧
     base64_deserialize (base64 [0, 77, 255]) = some [0, 77, 255]) :=
  ⟨by decide, codec_tolerance [0, 77, 255] (by decide)⟩

/-- Digit accumulation of Rust's `str::parse::<u64>`. -/
def parseU64Digits (ds : List Char) : Nat :=
  ds.foldl (fun acc c => acc * 10 + (c.toNat - 48)) 0

/-- Digits of a counter string after Rust's optional leading plus sign. -/
def counterDigits (s : String) : List Char :=
  if s.data.headI = '+' then s.data.tail else s.data

/-- Rust's `str::parse::<u64>` as used on `counter` in model.rs line 66: an
optional plus sign followed by one or more ASCII digits whose value fits in an
unsigned 64-bit integer; anything else is a parse error. -/
def parseU64 (s : String) : Option Nat :=
  if counterDigits s ≠ [] ∧ (counterDigits s).all (fun c => c.isDigit) ∧
      parseU64Digits (counterDigits s) < 2 ^ 64 then
    some (parseU64Digits (counterDigits s))
  else none

/-- Row of the `passkeys` table, with the seven columns selected and bound by
model.rs: `id`, `rp_id`, `rp_name`, `user_id`, `username`, `counter` (an
unsigned 64-bit integer: model.rs binds `parse::<u64>()` and reads
`row.get::<_, u64>`), and `key` (base64 text of the private key). -/
structure DbRow where
  id : String
  rp_id : String
  rp_name : String
  user_id : String
  username : String
  counter : Nat
  key : String
deriving DecidableEq, Repr

/-- State of the SQLite `passkeys` table. -/
structure Db where
  passkeys : List DbRow
deriving DecidableEq, Repr

/-- Modelled from the spec: the table schema `model.sql` is not under src/
(model.rs includes it with `include_str!`); the spec's persistence contract
says credentials "must upsert by credential_id", so `id` is the conflict key
and `INSERT OR REPLACE` deletes the row with the same `id` before inserting
the new one. -/
def insertOrReplace (db : Db) (r : DbRow) : Db :=
  ⟨db.passkeys.filter (fun q => q.id ≠ r.id) ++ [r]⟩

/-- The seven parameters bound by store_passkeys' INSERT statement for one
credential (model.rs lines 59-68): counter is the parsed u64 and the key
column is the canonical base64 text of the private key. -/
def passkeyToRow (pk : Passkey) (c : Nat) : DbRow :=
  ⟨pk.credential_id, pk.relying_party_id, pk.relying_party_name, pk.user_handle,
    pk.user_display_name, c, base64 pk.private_key⟩

/-- Outcome of the statement loop inside store_passkeys' transaction. -/
inductive TxResult where
  | ok (txDb : Db)
  | panicked (msg : String)
deriving DecidableEq, Repr

/-- Result of a store_passkeys call (`rusqlite::Result<()>` or a panic). -/
inductive StoreResult where
  | ok
  | err (msg : String)
  | panicked (msg : String)
deriving DecidableEq, Repr

/-- The loop of store_passkeys (model.rs lines 59-69) acting on the
transaction's view of the table: each credential's counter is parsed with
`parse::<u64>().unwrap()` — a non-parsing counter panics — and the row is
upserted.  The INSERT OR REPLACE itself cannot fail on this schema, so no
error path remains in the model. -/
def store_tx : Db → List Passkey → TxResult
  | txDb, [] => TxResult.ok txDb
  | txDb, pk :: rest =>
    match parseU64 pk.counter with
    | none => TxResult.panicked ("called Result::unwrap() on an Err value: ParseIntError")
    | some c => store_tx (insertOrReplace txDb (passkeyToRow pk c)) rest

/-- Function `store_passkeys` from model.rs lines 43-72.  The function opens a
transaction, runs the insert loop, and returns `Ok(())` — but it never calls
`tx.commit()`, and a rusqlite `Transaction` rolls back when dropped, so the
connection's database is returned unchanged whether the loop succeeds or
panics (a panic unwinds through the same rollback). -/
def store_passkeys (conn : Db) (passkeys : List Passkey) : StoreResult × Db :=
  match store_tx conn passkeys with
  | TxResult.ok _txDb => (StoreResult.ok, conn)
  | TxResult.panicked msg => (StoreResult.panicked msg, conn)

/-- Record built by fetch_passkeys' row closure (model.rs lines 28-39).  The
source's struct literal assigns seven fields and omits `key_algorithm` — a
`Passkey` in schema.rs has eight fields, so that literal does not compile in
Rust; the record here carries exactly the seven fields the closure builds. -/
structure FetchedPasskey where
  credential_id : String
  relying_party_id : String
  relying_party_name : String
  user_handle : String
  user_display_name : String
  counter : String
  private_key : Bytes
deriving DecidableEq, Repr

/-- Row closure of fetch_passkeys: the counter column is read as a u64 and
rendered with `to_string()`, and the key column is decoded with
`try_from_base64`, failing with `FromSqlError::InvalidType`. -/
def fetch_row (r : DbRow) : Except String FetchedPasskey :=
  match try_from_base64 r.key with
  | none => Except.error ("InvalidType")
  | some sk =>
    Except.ok ⟨r.id, r.rp_id, r.rp_name, r.user_id, r.username, toString r.counter, sk⟩

/-- Collect the row results, first error wins (`res.collect()`). -/
def fetch_rows : List DbRow → Except String (List FetchedPasskey)
  | [] => Except.ok []
  | r :: rest =>
    match fetch_row r with
    | Except.error e => Except.error e
    | Except.ok p =>
      match fetch_rows rest with
      | Except.error e => Except.error e
      | Except.ok ps => Except.ok (p :: ps)

/-- Function `fetch_passkeys` from model.rs lines 15-41: select the seven
columns of every row and map them through the row closure. -/
def fetch_passkeys (db : Db) : Except String (List FetchedPasskey) :=
  fetch_rows db.passkeys

/-- Empty database. -/
def emptyDb : Db := ⟨[]⟩

/-- Concrete credential with counter zero. -/
def demoPasskeyA : Passkey :=
  ⟨ "cred-1", "example.com", "Example", "user-1", "wendy", "0", "-7", [0]⟩

/-- Concrete credential with counter 42. -/
def demoPasskeyB : Passkey :=
  ⟨ "cred-2", "ebay.com", "Ebay", "user-2", "wendy2", "42", "-7", [255]⟩

/-- Concrete credential sharing `demoPasskeyA`'s credential_id with a newer
counter, to exercise the upsert. -/
def demoPasskeyA2 : Passkey := { demoPasskeyA with counter := "7" }

/-- C5: code bug — store_passkeys upserts the batch keyed by credential_id
inside its transaction, but never calls `tx.commit()`; rusqlite rolls the
transaction back on drop, so a call that returns `Ok` leaves the database
unchanged and fetch_passkeys afterwards returns the prior rows (none), not
the stored batch. -/
theorem store_passkeys_rolls_back :
    store_tx emptyDb [demoPasskeyA, demoPasskeyB] =
      TxResult.ok ⟨[passkeyToRow demoPasskeyA 0, passkeyToRow demoPasskeyB 42]⟩ ∧
    store_tx emptyDb [demoPasskeyA, demoPasskeyA2] =
      TxResult.ok ⟨[passkeyToRow demoPasskeyA2 7]⟩ ∧
    store_passkeys emptyDb [demoPasskeyA, demoPasskeyB] = (StoreResult.ok, emptyDb) ∧
    fetch_passkeys emptyDb = Except.ok [] := by
  decide

/-- Structured text values: the JSON shape in which the wire envelopes
travel. -/
inductive Json where
  | str (s : String)
  | num (n : Int)
  | bool (b : Bool)
  | null
  | arr (elems : List Json)
  | obj (fields : List (String × Json))

/-- Deserialization of one binary field through the `base64` serde module of
schema.rs lines 105-114: the value must be a string, and it must decode as
base64 or base64url. -/
def decodeB64Field : Json → Except String Bytes
  | Json.str s =>
    match base64_deserialize s with
    | some bytes => Except.ok bytes
    | none => Except.error ("could not decode as base64 or base64url")
  | _ => Except.error ("invalid type: expected a string")

/-- Field loop of the serde-derived `OpenBox` deserializer (camelCase field
names, schema.rs lines 5-10): known keys fill their slot (a second occurrence
is a duplicate-field error), unknown keys are skipped — the derive has no
`deny_unknown_fields` attribute — and a missing slot at the end is a
missing-field error.  No field has a default. -/
def deserializeOpenBoxFields : List (String × Json) → Option Bytes → Except String OpenBox
  | [], none => Except.error ("missing field publicKey")
  | [], some pk => Except.ok ⟨pk⟩
  | (k, v) :: rest, slot =>
    if k = "publicKey" then
      match slot with
      | some _ => Except.error ("duplicate field publicKey")
      | none =>
        match decodeB64Field v with
        | Except.error e => Except.error e
        | Except.ok bs => deserializeOpenBoxFields rest (some bs)
    else deserializeOpenBoxFields rest slot

/-- Serde-derived `OpenBox` deserializer: the document must be a map. -/
def deserializeOpenBox : Json → Except String OpenBox
  | Json.obj fields => deserializeOpenBoxFields fields none
  | _ => Except.error ("invalid type: expected a map")

/-- Partially-filled slots of the serde-derived `SealedBox` deserializer. -/
structure SealedBoxSlots where
  public_key : Option Bytes := none
  encrypted_vault : Option Bytes := none
  key_derivation_salt : Option Bytes := none
  encryption_nonce : Option Bytes := none
  authentication_tag : Option Bytes := none
deriving DecidableEq, Repr

/-- Fill one slot: occupied means a duplicate-field error, then the value is
decoded as a binary field. -/
def setB64Slot (cur : Option Bytes) (v : Json) (fieldName : String)
    (put : Bytes → SealedBoxSlots) : Except String SealedBoxSlots :=
  match cur with
  | some _ => Except.error ("duplicate field " ++ fieldName)
  | none =>
    match decodeB64Field v with
    | Except.error e => Except.error e
    | Except.ok bs => Except.ok (put bs)

/-- One map entry of the serde-derived `SealedBox` deserializer (camelCase
field names, schema.rs lines 19-36): the five known keys fill their slots,
anything else is skipped (no `deny_unknown_fields`). -/
def updateSlots (slots : SealedBoxSlots) (k : String) (v : Json) :
    Except String SealedBoxSlots :=
  if k = "publicKey" then
    setB64Slot slots.public_key v k (fun bs => { slots with public_key := some bs })
  else if k = "encryptedVault" then
    setB64Slot slots.encrypted_vault v k (fun bs => { slots with encrypted_vault := some bs })
  else if k = "keyDerivationSalt" then
    setB64Slot slots.key_derivation_salt v k
      (fun bs => { slots with key_derivation_salt := some bs })
  else if k = "encryptionNonce" then
    setB64Slot slots.encryption_nonce v k (fun bs => { slots with encryption_nonce := some bs })
  else if k = "authenticationTag" then
    setB64Slot slots.authentication_tag v k
      (fun bs => { slots with authentication_tag := some bs })
  else Except.ok slots

/-- End of the map: every slot must be filled, checked in field declaration
order; an empty slot is a missing-field error and never a default. -/
def finishSlots (slots : SealedBoxSlots) : Except String SealedBox :=
  match slots.public_key with
  | none => Except.error ("missing field publicKey")
  | some pk =>
    match slots.encrypted_vault with
    | none => Except.error ("missing field encryptedVault")
    | some ev =>
      match slots.key_derivation_salt with
      | none => Except.error ("missing field keyDerivationSalt")
      | some ks =>
        match slots.encryption_nonce with
        | none => Except.error ("missing field encryptionNonce")
        | some en =>
          match slots.authentication_tag with
          | none => Except.error ("missing field authenticationTag")
          | some tg => Except.ok ⟨pk, ev, ks, en, tg⟩

/-- Field loop of the serde-derived `SealedBox` deserializer. -/
def deserializeSealedBoxFields : List (String × Json) → SealedBoxSlots →
    Except String SealedBox
  | [], slots => finishSlots slots
  | (k, v) :: rest, slots =>
    match updateSlots slots k v with
    | Except.error e => Except.error e
    | Except.ok slots2 => deserializeSealedBoxFields rest slots2

/-- Serde-derived `SealedBox` deserializer: the document must be a map. -/
def deserializeSealedBox : Json → Except String SealedBox
  | Json.obj fields => deserializeSealedBoxFields fields {}
  | _ => Except.error ("invalid type: expected a map")

/-- Inversion of a successful binary-field decode: the value was a string
that decoded to the bytes. -/
theorem decodeB64Field_ok {v : Json} {bs : Bytes} (h : decodeB64Field v = Except.ok bs) :
    ∃ s, v = Json.str s ∧ base64_deserialize s = some bs := by
  cases v with
  | str s =>
    refine ⟨s, rfl, ?_⟩
    unfold decodeB64Field at h
    cases hd : base64_deserialize s with
    | none => simp [hd] at h
    | some bytes =>
      simp only [hd, Except.ok.injEq] at h
      rw [h]
  | num n => simp [decodeB64Field] at h
  | bool b => simp [decodeB64Field] at h
  | null => simp [decodeB64Field] at h
  | arr es => simp [decodeB64Field] at h
  | obj fs => simp [decodeB64Field] at h

/-- Skipping entries none of which carries the `publicKey` key leaves the
OpenBox field loop where it started. -/
theorem deserializeOpenBoxFields_no_key :
    ∀ (fields : List (String × Json)) (slot : Option Bytes),
    (∀ kv ∈ fields, kv.fst ≠ "publicKey") →
    deserializeOpenBoxFields fields slot = deserializeOpenBoxFields [] slot
  | [], _, _ => rfl
  | (k, v) :: rest, slot, h => by
      have hk : k ≠ "publicKey" := h (k, v) (by simp)
      simp only [deserializeOpenBoxFields, if_neg hk]
      exact deserializeOpenBoxFields_no_key rest slot (fun kv hkv => h kv (by simp [hkv]))

/-- A successful OpenBox field loop got its bytes from an actual `publicKey`
entry of the input (or from the incoming slot): no default is ever used. -/
theorem deserializeOpenBoxFields_ok :
    ∀ (fields : List (String × Json)) (slot : Option Bytes) (ob : OpenBox),
    deserializeOpenBoxFields fields slot = Except.ok ob →
    (∃ s, ( "publicKey", Json.str s) ∈ fields ∧ base64_deserialize s = some ob.public_key) ∨
    slot = some ob.public_key
  | [], slot, ob, h => by
      cases slot with
      | none => simp [deserializeOpenBoxFields] at h
      | some pk =>
        right
        simp only [deserializeOpenBoxFields, Except.ok.injEq] at h
        rw [← h]
  | (k, v) :: rest, slot, ob, h => by
      by_cases hk : k = "publicKey"
      · subst hk
        simp only [deserializeOpenBoxFields, if_pos rfl] at h
        cases slot with
        | some _ => simp at h
        | none =>
          cases hdec : decodeB64Field v with
          | error e => simp only [hdec] at h; simp at h
          | ok bs =>
            simp only [hdec] at h
            rcases deserializeOpenBoxFields_ok rest (some bs) ob h with ⟨s, hs, hb⟩ | hslot
            · exact Or.inl ⟨s, by simp [hs], hb⟩
            · obtain ⟨s, rfl, hsd⟩ := decodeB64Field_ok hdec
              refine Or.inl ⟨s, by simp, ?_⟩
              rw [hsd]
              exact congrArg some (Option.some.inj hslot)
      · simp only [deserializeOpenBoxFields, if_neg hk] at h
        rcases deserializeOpenBoxFields_ok rest slot ob h with ⟨s, hs, hb⟩ | hslot
        · exact Or.inl ⟨s, by simp [hs], hb⟩
        · exact Or.inr hslot

/-- Field selector for the five required fields of a SealedBox document. -/
inductive SealedField where
  | publicKey
  | encryptedVault
  | keyDerivationSalt
  | encryptionNonce
  | authenticationTag
deriving DecidableEq, Repr

/-- CamelCase wire key of a SealedBox field. -/
def SealedField.key : SealedField → String
  | SealedField.publicKey => "publicKey"
  | SealedField.encryptedVault => "encryptedVault"
  | SealedField.keyDerivationSalt => "keyDerivationSalt"
  | SealedField.encryptionNonce => "encryptionNonce"
  | SealedField.authenticationTag => "authenticationTag"

/-- Slot of a given field. -/
def SealedBoxSlots.get (slots : SealedBoxSlots) : SealedField → Option Bytes
  | SealedField.publicKey => slots.public_key
  | SealedField.encryptedVault => slots.encrypted_vault
  | SealedField.keyDerivationSalt => slots.key_derivation_salt
  | SealedField.encryptionNonce => slots.encryption_nonce
  | SealedField.authenticationTag => slots.authentication_tag

/-- Field of a parsed SealedBox. -/
def SealedBox.get (sb : SealedBox) : SealedField → Bytes
  | SealedField.publicKey => sb.public_key
  | SealedField.encryptedVault => sb.encrypted_vault
  | SealedField.keyDerivationSalt => sb.key_derivation_salt
  | SealedField.encryptionNonce => sb.encryption_nonce
  | SealedField.authenticationTag => sb.authentication_tag

/-- Inversion of a successful slot fill: the slot was empty, the value
decoded, and the result is the updated record. -/
theorem setB64Slot_ok {cur : Option Bytes} {v : Json} {n : String}
    {put : Bytes → SealedBoxSlots} {s2 : SealedBoxSlots}
    (h : setB64Slot cur v n put = Except.ok s2) :
    ∃ bs, decodeB64Field v = Except.ok bs ∧ s2 = put bs := by
  unfold setB64Slot at h
  cases cur with
  | some _ => simp at h
  | none =>
    cases hdec : decodeB64Field v with
    | error e => simp only [hdec] at h; simp at h
    | ok bs =>
      simp only [hdec, Except.ok.injEq] at h
      exact ⟨bs, rfl, h.symm⟩

/-- A successful slot update under a key other than field `f`'s wire key
leaves `f`'s slot unchanged. -/
theorem updateSlots_get {slots : SealedBoxSlots} {k : String} {v : Json}
    {slots2 : SealedBoxSlots} (f : SealedField) (hk : k ≠ f.key)
    (h : updateSlots slots k v = Except.ok slots2) :
    slots2.get f = slots.get f := by
  unfold updateSlots at h
  split_ifs at h with h1 h2 h3 h4 h5
  · obtain ⟨bs, _, rfl⟩ := setB64Slot_ok h
    cases f <;> first | rfl | exact absurd h1 hk
  · obtain ⟨bs, _, rfl⟩ := setB64Slot_ok h
    cases f <;> first | rfl | exact absurd h2 hk
  · obtain ⟨bs, _, rfl⟩ := setB64Slot_ok h
    cases f <;> first | rfl | exact absurd h3 hk
  · obtain ⟨bs, _, rfl⟩ := setB64Slot_ok h
    cases f <;> first | rfl | exact absurd h4 hk
  · obtain ⟨bs, _, rfl⟩ := setB64Slot_ok h
    cases f <;> first | rfl | exact absurd h5 hk
  · injection h with h6
    rw [← h6]

/-- Updating with the wire key of field `f` fills exactly `f`'s slot with the
decoded bytes of the entry's value. -/
theorem updateSlots_self {slots : SealedBoxSlots} {v : Json} {slots2 : SealedBoxSlots}
    (f : SealedField) (h : updateSlots slots (f.key) v = Except.ok slots2) :
    ∃ bs, decodeB64Field v = Except.ok bs ∧ slots2.get f = some bs := by
  cases f with
  | publicKey =>
    unfold updateSlots SealedField.key at h
    rw [if_pos rfl] at h
    obtain ⟨bs, hdec, rfl⟩ := setB64Slot_ok h
    exact ⟨bs, hdec, rfl⟩
  | encryptedVault =>
    unfold updateSlots SealedField.key at h
    rw [if_neg (by decide), if_pos rfl] at h
    obtain ⟨bs, hdec, rfl⟩ := setB64Slot_ok h
    exact ⟨bs, hdec, rfl⟩
  | keyDerivationSalt =>
    unfold updateSlots SealedField.key at h
    rw [if_neg (by decide), if_neg (by decide), if_pos rfl] at h
    obtain ⟨bs, hdec, rfl⟩ := setB64Slot_ok h
    exact ⟨bs, hdec, rfl⟩
  | encryptionNonce =>
    unfold updateSlots SealedField.key at h
    rw [if_neg (by decide), if_neg (by decide), if_neg (by decide), if_pos rfl] at h
    obtain ⟨bs, hdec, rfl⟩ := setB64Slot_ok h
    exact ⟨bs, hdec, rfl⟩
  | authenticationTag =>
    unfold updateSlots SealedField.key at h
    rw [if_neg (by decide), if_neg (by decide), if_neg (by decide), if_neg (by decide),
      if_pos rfl] at h
    obtain ⟨bs, hdec, rfl⟩ := setB64Slot_ok h
    exact ⟨bs, hdec, rfl⟩

/-- Updating with a key that is no SealedBox field is a no-op: serde skips
unknown fields. -/
theorem updateSlots_unknown {slots : SealedBoxSlots} {k : String} {v : Json}
    (hk : ∀ f : SealedField, k ≠ f.key) :
    updateSlots slots k v = Except.ok slots := by
  have hk1 : k ≠ "publicKey" := hk SealedField.publicKey
  have hk2 : k ≠ "encryptedVault" := hk SealedField.encryptedVault
  have hk3 : k ≠ "keyDerivationSalt" := hk SealedField.keyDerivationSalt
  have hk4 : k ≠ "encryptionNonce" := hk SealedField.encryptionNonce
  have hk5 : k ≠ "authenticationTag" := hk SealedField.authenticationTag
  unfold updateSlots
  rw [if_neg hk1, if_neg hk2, if_neg hk3, if_neg hk4, if_neg hk5]

/-- With field `f`'s slot empty, finishing the map is always an error. -/
theorem finishSlots_missing {slots : SealedBoxSlots} (f : SealedField)
    (hn : slots.get f = none) :
    ∃ e, finishSlots slots = Except.error e := by
  obtain ⟨pk, ev, ks, en, tg⟩ := slots
  cases f with
  | publicKey =>
    simp only [SealedBoxSlots.get] at hn
    subst hn
    exact ⟨_, rfl⟩
  | encryptedVault =>
    simp only [SealedBoxSlots.get] at hn
    subst hn
    cases pk <;> exact ⟨_, rfl⟩
  | keyDerivationSalt =>
    simp only [SealedBoxSlots.get] at hn
    subst hn
    cases pk <;> cases ev <;> exact ⟨_, rfl⟩
  | encryptionNonce =>
    simp only [SealedBoxSlots.get] at hn
    subst hn
    cases pk <;> cases ev <;> cases ks <;> exact ⟨_, rfl⟩
  | authenticationTag =>
    simp only [SealedBoxSlots.get] at hn
    subst hn
    cases pk <;> cases ev <;> cases ks <;> cases en <;> exact ⟨_, rfl⟩

/-- Inversion of a completed map: every slot was filled, with exactly the
corresponding field of the parsed box. -/
theorem finishSlots_ok {slots : SealedBoxSlots} {sb : SealedBox}
    (h : finishSlots slots = Except.ok sb) (f : SealedField) :
    slots.get f = some (sb.get f) := by
  obtain ⟨pk, ev, ks, en, tg⟩ := slots
  cases pk with
  | none => simp [finishSlots] at h
  | some a =>
    cases ev with
    | none => simp [finishSlots] at h
    | some b =>
      cases ks with
      | none => simp [finishSlots] at h
      | some c =>
        cases en with
        | none => simp [finishSlots] at h
        | some d =>
          cases tg with
          | none => simp [finishSlots] at h
          | some e2 =>
            have h2 : (⟨a, b, c, d, e2⟩ : SealedBox) = sb := by
              simp only [finishSlots, Except.ok.injEq] at h
              exact h
            rw [← h2]
            cases f <;> rfl

/-- A SealedBox document with no entry for required field `f` never
deserializes successfully: the missing field is a decode error. -/
theorem sealed_fields_missing (f : SealedField) :
    ∀ (fields : List (String × Json)) (slots : SealedBoxSlots),
    (∀ kv ∈ fields, kv.fst ≠ f.key) → slots.get f = none →
    ∃ e, deserializeSealedBoxFields fields slots = Except.error e
  | [], slots, _, hn => finishSlots_missing f hn
  | (k, v) :: rest, slots, h, hn => by
      have hk : k ≠ f.key := h (k, v) (by simp)
      cases hupd : updateSlots slots k v with
      | error e => exact ⟨e, by simp [deserializeSealedBoxFields, hupd]⟩
      | ok slots2 =>
        have hn2 : slots2.get f = none := (updateSlots_get f hk hupd).trans hn
        obtain ⟨e, he⟩ :=
          sealed_fields_missing f rest slots2 (fun kv hkv => h kv (by simp [hkv])) hn2
        exact ⟨e, by simp [deserializeSealedBoxFields, hupd, he]⟩

/-- A successful SealedBox field loop got each field's bytes from an actual
`f.key` entry of the input (or from the incoming slot): no default is ever
used for any of the five fields. -/
theorem deserializeSealedBoxFields_ok (f : SealedField) :
    ∀ (fields : List (String × Json)) (slots : SealedBoxSlots) (sb : SealedBox),
    deserializeSealedBoxFields fields slots = Except.ok sb →
    (∃ s, (f.key, Json.str s) ∈ fields ∧ base64_deserialize s = some (sb.get f)) ∨
    slots.get f = some (sb.get f)
  | [], slots, sb, h => Or.inr (finishSlots_ok h f)
  | (k, v) :: rest, slots, sb, h => by
      cases hupd : updateSlots slots k v with
      | error e => simp [deserializeSealedBoxFields, hupd] at h
      | ok slots2 =>
        simp only [deserializeSealedBoxFields, hupd] at h
        rcases deserializeSealedBoxFields_ok f rest slots2 sb h with ⟨s, hs, hb⟩ | hslot
        · exact Or.inl ⟨s, by simp [hs], hb⟩
        · by_cases hkf : k = f.key
          · subst hkf
            obtain ⟨bs, hdec, hget⟩ := updateSlots_self f hupd
            have hbs : bs = sb.get f := by
              rw [hget] at hslot
              exact Option.some.inj hslot
            obtain ⟨s, rfl, hsd⟩ := decodeB64Field_ok hdec
            refine Or.inl ⟨s, by simp, ?_⟩
            rw [hsd, hbs]
          · exact Or.inr (((updateSlots_get f hkf hupd).symm).trans hslot)

/-- C7 counterexample: the serde derives carry no `deny_unknown_fields`
attribute, so envelope documents with an unknown extra field still
deserialize successfully — for both envelope kinds — while the claim says an
unknown field is a decode error. -/
theorem envelope_accepts_unknown_field :
    deserializeOpenBox
        (Json.obj [( "publicKey", Json.str ("AA==")), ( "mystery", Json.str ("x"))])
      = Except.ok ⟨[0]⟩ ∧
    deserializeSealedBox
        (Json.obj [( "publicKey", Json.str ("AA==")),
          ( "encryptedVault", Json.str ("AA==")),
          ( "keyDerivationSalt", Json.str ("AA==")),
          ( "encryptionNonce", Json.str ("AA==")),
          ( "authenticationTag", Json.str ("AA==")),
          ( "mystery", Json.str ("x"))])
      = Except.ok ⟨[0], [0], [0], [0], [0]⟩ := by
  constructor
  · decide
  · decide

/-- C7 (amended): deserializing a wire envelope (OpenBox or SealedBox) fails
with a decode error whenever any required field is missing, and no field of
either envelope is ever filled in by a default value — every successful parse
takes each field's bytes from an actual entry of the document; unknown
fields, however, are skipped rather than rejected (serde's default without
`deny_unknown_fields`), again for both envelopes. -/
theorem envelope_required_fields
    (fields : List (String × Json)) (k : String) (v : Json)
    (fieldsS : List (String × Json)) (fS : SealedField) (kS : String) (vS : Json)
    (hk : k ≠ "publicKey")
    (hmiss : ∀ kv ∈ fields, kv.fst ≠ "publicKey")
    (hkS : ∀ f : SealedField, kS ≠ f.key)
    (hmissS : ∀ kv ∈ fieldsS, kv.fst ≠ fS.key) :
    deserializeOpenBox (Json.obj fields) = Except.error ("missing field publicKey") ∧
    deserializeOpenBox (Json.obj ((k, v) :: fields))
      = Except.error ("missing field publicKey") ∧
    (∀ fs ob, deserializeOpenBox (Json.obj fs) = Except.ok ob →
      ∃ s, ( "publicKey", Json.str s) ∈ fs ∧ base64_deserialize s = some ob.public_key) ∧
    (∃ e, deserializeSealedBox (Json.obj fieldsS) = Except.error e) ∧
    deserializeSealedBox (Json.obj ((kS, vS) :: fieldsS))
      = deserializeSealedBox (Json.obj fieldsS) ∧
    (∀ fs sb (f : SealedField), deserializeSealedBox (Json.obj fs) = Except.ok sb →
      ∃ s, (f.key, Json.str s) ∈ fs ∧ base64_deserialize s = some (sb.get f)) := by
  refine ⟨?_, ?_, ?_, ?_, ?_, ?_⟩
  · exact deserializeOpenBoxFields_no_key fields none hmiss
  · show deserializeOpenBoxFields ((k, v) :: fields) none
      = Except.error ("missing field publicKey")
    simp only [deserializeOpenBoxFields, if_neg hk]
    exact deserializeOpenBoxFields_no_key fields none hmiss
  · intro fs ob h
    rcases deserializeOpenBoxFields_ok fs none ob h with hsome | hslot
    · exact hsome
    · simp at hslot
  · refine sealed_fields_missing fS fieldsS {} hmissS ?_
    cases fS <;> rfl
  · show deserializeSealedBoxFields ((kS, vS) :: fieldsS) {}
      = deserializeSealedBoxFields fieldsS {}
    simp only [deserializeSealedBoxFields, updateSlots_unknown hkS]
  · intro fs sb f h
    rcases deserializeSealedBoxFields_ok f fs {} sb h with hsome | hslot
    · exact hsome
    · cases f <;> simp [SealedBoxSlots.get] at hslot

/-- Witness for C7's amended theorem at concrete inputs: an empty document
misses `publicKey`, unknown-key entries change nothing for either envelope,
a SealedBox document carrying only `publicKey` fails on its missing
`encryptionNonce`, and the no-default conjuncts hold as stated. -/
theorem envelope_required_fields_witness :
    (( "mystery" : String) ≠ "publicKey" ∧
     (∀ kv ∈ ([] : List (String × Json)), kv.fst ≠ "publicKey") ∧
     (∀ f : SealedField, ( "mystery" : String) ≠ f.key) ∧
     (∀ kv ∈ [(( "publicKey" : String), Json.str ("AA=="))],
        kv.fst ≠ SealedField.encryptionNonce.key)) ∧
    (deserializeOpenBox (Json.obj []) = Except.error ("missing field publicKey") ∧
     deserializeOpenBox (Json.obj [( "mystery", Json.null)])
       = Except.error ("missing field publicKey") ∧
     (∀ fs ob, deserializeOpenBox (Json.obj fs) = Except.ok ob →
       ∃ s, ( "publicKey", Json.str s) ∈ fs ∧ base64_deserialize s = some ob.public_key) ∧
     (∃ e, deserializeSealedBox (Json.obj [(( "publicKey" : String), Json.str ("AA=="))])
        = Except.error e) ∧
     deserializeSealedBox (Json.obj [( "mystery", Json.null),
         (( "publicKey" : String), Json.str ("AA=="))])
       = deserializeSealedBox (Json.obj [(( "publicKey" : String), Json.str ("AA=="))]) ∧
     (∀ fs sb (f : SealedField), deserializeSealedBox (Json.obj fs) = Except.ok sb →
       ∃ s, (f.key, Json.str s) ∈ fs ∧ base64_deserialize s = some (sb.get f))) :=
  ⟨⟨by decide, by simp, by intro f; cases f <;> decide, by decide⟩,
   envelope_required_fields [] "mystery" Json.null
     [(( "publicKey" : String), Json.str ("AA=="))] SealedField.encryptionNonce
     "mystery" Json.null
     (by decide) (by simp) (by intro f; cases f <;> decide) (by decide)⟩

/-- Rust's Debug escaping for string content: quote and backslash are
escaped.  (Rust's `escape_debug` also escapes control and some non-printable
characters; that refinement does not affect the redaction property verified
here, which holds for any content escaping.) -/
def escapeDebugChar (c : Char) : String :=
  if c = '"' then "\\\"" else if c = '\\' then "\\\\" else String.mk [c]

/-- Debug rendering of a string field: quoted, content escaped. -/
def debugStr (s : String) : String :=
  "\"" ++ s.data.foldl (fun acc c => acc ++ escapeDebugChar c) "" ++ "\""

/-- The `Debug` implementation for `Passkey`, schema.rs lines 78-91:
`debug_struct` prints every field, with the literal placeholder in place of
`private_key`. -/
def Passkey.debugFmt (p : Passkey) : String :=
  "Passkey \x7b credential_id: " ++ debugStr p.credential_id ++
  ", relying_party_id: " ++ debugStr p.relying_party_id ++
  ", relying_party_name: " ++ debugStr p.relying_party_name ++
  ", user_handle: " ++ debugStr p.user_handle ++
  ", user_display_name: " ++ debugStr p.user_display_name ++
  ", counter: " ++ debugStr p.counter ++
  ", key_algorithm: " ++ debugStr p.key_algorithm ++
  ", private_key: " ++ debugStr ("<Redacted>") ++ " \x7d"

/-- C9: the Debug rendering of a Passkey never reveals `private_key`: the
literal placeholder is printed in place of the key bytes, and any two
passkeys differing only in `private_key` render to identical Debug output,
so the output does not depend on the key bytes. -/
theorem passkey_debug_redacts (p q : Passkey)
    (h1 : p.credential_id = q.credential_id)
    (h2 : p.relying_party_id = q.relying_party_id)
    (h3 : p.relying_party_name = q.relying_party_name)
    (h4 : p.user_handle = q.user_handle)
    (h5 : p.user_display_name = q.user_display_name)
    (h6 : p.counter = q.counter)
    (h7 : p.key_algorithm = q.key_algorithm) :
    Passkey.debugFmt p = Passkey.debugFmt q ∧
    (( "<Redacted>" : String).data) <:+: (Passkey.debugFmt p).data := by
  constructor
  · unfold Passkey.debugFmt
    rw [h1, h2, h3, h4, h5, h6, h7]
  · have hmid : (( "<Redacted>" : String).data) <:+: (debugStr ("<Redacted>")).data := by
      decide
    refine List.IsInfix.trans hmid ⟨(( "Passkey \x7b credential_id: " : String) ++
      debugStr p.credential_id ++
      ", relying_party_id: " ++ debugStr p.relying_party_id ++
      ", relying_party_name: " ++ debugStr p.relying_party_name ++
      ", user_handle: " ++ debugStr p.user_handle ++
      ", user_display_name: " ++ debugStr p.user_display_name ++
      ", counter: " ++ debugStr p.counter ++
      ", key_algorithm: " ++ debugStr p.key_algorithm ++
      ", private_key: ").data, (( " \x7d" : String).data), ?_⟩
    show _ ++ _ ++ _ = (Passkey.debugFmt p).data
    unfold Passkey.debugFmt
    simp only [String.data_append]

/-- Witness for C9: two concrete passkeys that differ only in their private
key bytes render identically, with the placeholder in the output. -/
theorem passkey_debug_redacts_witness :
    (demoPasskeyA.credential_id = { demoPasskeyA with private_key := [9] }.credential_id ∧
     demoPasskeyA.relying_party_id = { demoPasskeyA with private_key := [9] }.relying_party_id ∧
     demoPasskeyA.relying_party_name
       = { demoPasskeyA with private_key := [9] }.relying_party_name ∧
     demoPasskeyA.user_handle = { demoPasskeyA with private_key := [9] }.user_handle ∧
     demoPasskeyA.user_display_name
       = { demoPasskeyA with private_key := [9] }.user_display_name ∧
     demoPasskeyA.counter = { demoPasskeyA with private_key := [9] }.counter ∧
     demoPasskeyA.key_algorithm = { demoPasskeyA with private_key := [9] }.key_algorithm ∧
     demoPasskeyA.private_key ≠ { demoPasskeyA with private_key := [9] }.private_key) ∧
    (Passkey.debugFmt demoPasskeyA
       = Passkey.debugFmt { demoPasskeyA with private_key := [9] } ∧
     (( "<Redacted>" : String).data) <:+: (Passkey.debugFmt demoPasskeyA).data) :=
  ⟨⟨rfl, rfl, rfl, rfl, rfl, rfl, rfl, by decide⟩,
   passkey_debug_redacts demoPasskeyA { demoPasskeyA with private_key := [9] }
     rfl rfl rfl rfl rfl rfl rfl⟩
